import Mathlib

/-!
# Verification of the Shopify review scraper (src/shopifyreview.py)

Shallow embedding of the page-extraction and pagination-termination logic of
`shopifyreview.py`.  The parsed HTML page (a BeautifulSoup document) is
modelled as a tree of nodes; the BeautifulSoup operations used by the source
(`find` / `find_all` by tag and exact class string, `find_next_sibling`,
`.text.strip()`, `.get(attr, default)`) are modelled as functions on that
tree.  Python `None` results are modelled with `Option`; Python exceptions
raised inside a `try` block are modelled by an explicit `Option String`
parameter (`none` = the block runs normally, `some msg` = an unexpected
exception with message `msg` is raised, so the `except` handler's value is
returned).  An uncaught exception in `main` is modelled by an explicit
`crash` outcome.
-/

/-- Logging levels of the logging collaborator. -/
inductive LogLevel where
  | info
  | warning
  | error
deriving DecidableEq

/-- One log line: a level and a message. -/
structure LogEntry where
  level : LogLevel
  msg : String
deriving DecidableEq

/-- A node of the parsed document: either a bare text node (a BeautifulSoup
`NavigableString`) or an element with a tag name, the literal value of its
`class` attribute (the source always matches the full class string, since
every selector in `shopifyreview.py` contains spaces and BeautifulSoup then
compares the exact attribute value), the remaining attributes, and children
in document order. -/
inductive Node where
  | text : String → Node
  | element : String → String → List (String × String) → List Node → Node

/-- Is this node an element (a BeautifulSoup `Tag`)?  `find`-family methods
with no string argument only ever return `Tag`s. -/
def Node.isElem : Node → Bool
  | .element _ _ _ _ => true
  | .text _ => false

mutual

/-- `.text` of BeautifulSoup: concatenation of every descendant text node in
document order. -/
def Node.innerText : Node → String
  | .text s => s
  | .element _ _ _ children => innerTextList children

/-- Concatenated `.text` of a list of sibling nodes. -/
def innerTextList : List Node → String
  | [] => ""
  | n :: rest => Node.innerText n ++ innerTextList rest

end

/-- Python `str.strip()`: remove whitespace from both ends (for the ASCII
whitespace characters the two languages agree on). -/
def pyStrip (s : String) : String :=
  String.mk
    (((s.data.dropWhile Char.isWhitespace).reverse.dropWhile Char.isWhitespace).reverse)

/-- `.text.strip()`: the concatenated text with surrounding whitespace
removed. -/
def Node.textStrip (n : Node) : String := pyStrip n.innerText

/-- `node.get(key, default)` without the default: look the key up among the
node's attributes; text nodes have none. -/
def Node.attr : Node → String → Option String
  | .text _, _ => none
  | .element _ _ attrs _, k => attrs.lookup k

/-- Does this node match `find(tag, class_=cls)`: an element with the given
tag whose class attribute is exactly `cls`? -/
def matchesTagClass (tag cls : String) : Node → Bool
  | .element t c _ _ => t == tag && c == cls
  | .text _ => false

mutual

/-- All descendants of a node (the node itself excluded, as in BeautifulSoup)
matching the given tag and class, in document order: `find_all`. -/
def findAllFrom (tag cls : String) : Node → List Node
  | .text _ => []
  | .element _ _ _ children => findAllList tag cls children

/-- All matching nodes inside a sibling list: each matching node precedes its
own matching descendants, which precede later siblings' matches. -/
def findAllList (tag cls : String) : List Node → List Node
  | [] => []
  | n :: rest =>
      (if matchesTagClass tag cls n then [n] else []) ++
        findAllFrom tag cls n ++ findAllList tag cls rest

end

/-- `find(tag, class_=cls)`: the first matching descendant in document order
(BeautifulSoup's `find` is `find_all` limited to one result). -/
def findFirst (tag cls : String) (n : Node) : Option Node :=
  (findAllFrom tag cls n).head?

mutual

/-- Like `findAllFrom`, but each matching descendant is paired with the list
of nodes that follow it inside its own parent — exactly the nodes
`find_next_sibling` walks over. -/
def findPairsFrom (tag cls : String) : Node → List (Node × List Node)
  | .text _ => []
  | .element _ _ _ children => findPairsList tag cls children

/-- Sibling-list worker for `findPairsFrom`. -/
def findPairsList (tag cls : String) : List Node → List (Node × List Node)
  | [] => []
  | n :: rest =>
      (if matchesTagClass tag cls n then [(n, rest)] else []) ++
        findPairsFrom tag cls n ++ findPairsList tag cls rest

end

/-- `find_next_sibling()`: the first element among the following siblings,
returned together with the siblings after it (text nodes are skipped — a
`find` with no arguments only matches `Tag`s). -/
def nextElemSibling : List Node → Option (Node × List Node)
  | [] => none
  | n :: rest => if n.isElem then some (n, rest) else nextElemSibling rest

/-- Class string of the main review container in `extract_reviews`. -/
def mainContainerClass : String :=
  "tw-col-span-full md:tw-col-span-9 lg:tw-col-span-8 lg:tw-pl-gutter--desktop"

/-- Class string of a review title element in `extract_reviews`. -/
def titleClass : String :=
  "tw-text-heading-xs tw-text-fg-primary tw-overflow-hidden tw-text-ellipsis tw-whitespace-nowrap"

/-- Class string of a free-text content block in `extract_content`. -/
def contentClass : String := "tw-mb-xs md:tw-mb-sm"

/-- Class string of a rate/time container in `time_rate_scrap`. -/
def rateContainerClass : String :=
  "tw-order-1 lg:tw-order-2 lg:tw-col-span-3 tw-overflow-x-auto"

/-- Class string of the star-rating widget in `time_rate_scrap`. -/
def rateWidgetClass : String :=
  "tw-flex tw-relative tw-space-x-0.5 tw-w-[88px] tw-h-md"

/-- Class string of the review date element in `time_rate_scrap`. -/
def dateClass : String := "tw-text-body-xs tw-text-fg-tertiary"

/-- One extracted identity record (`extract_reviews` loop body output). -/
structure IdentityRecord where
  Store : String
  Location : String
  Span : String
deriving DecidableEq

/-- Body of the `for review_element in review_elements` loop of
`extract_reviews`: `Store` is the title's stripped text, `Location` the
stripped text of `find_next_sibling()` (or "Unknown" when it is `None`),
`Span` the stripped text of the sibling after that (or "Unknown"). -/
def identityOf (review_element : Node) (following : List Node) : IdentityRecord :=
  match nextElemSibling following with
  | none => ⟨review_element.textStrip, "Unknown", "Unknown"⟩
  | some (location_element, after) =>
      match nextElemSibling after with
      | none => ⟨review_element.textStrip, location_element.textStrip, "Unknown"⟩
      | some (span_element, _) =>
          ⟨review_element.textStrip, location_element.textStrip, span_element.textStrip⟩

/-- `try` block of `extract_reviews`: find the main container; if present,
map `identityOf` over the title elements found inside it; if absent, log a
warning and return `None` (modelled as `none`). -/
def extract_reviews_try (soup : Node) : Option (List IdentityRecord) × List LogEntry :=
  match findFirst "div" mainContainerClass soup with
  | some main_container =>
      (some ((findPairsFrom "div" titleClass main_container).map
        fun p => identityOf p.1 p.2), [])
  | none => (none, [⟨.warning, "Main container not found on this page"⟩])

/-- `extract_reviews`: the `exn` parameter models an unexpected exception
raised inside the `try` block (`some e` = raised with message `e`); the
`except` handler logs the error and returns `None`. -/
def extract_reviews (soup : Node) (exn : Option String) :
    Option (List IdentityRecord) × List LogEntry :=
  match exn with
  | some e => (none, [⟨.error, "Error extracting reviews: " ++ e⟩])
  | none => extract_reviews_try soup

/-- `try` block of `extract_content`: stripped text of every content block in
the whole page, in document order. -/
def extract_content_try (soup : Node) : List String :=
  (findAllFrom "div" contentClass soup).map Node.textStrip

/-- `extract_content`: on an unexpected exception the handler logs the error
and returns the empty list. -/
def extract_content (soup : Node) (exn : Option String) : List String × List LogEntry :=
  match exn with
  | some e => ([], [⟨.error, "Error extracting content: " ++ e⟩])
  | none => (extract_content_try soup, [])

/-- One extracted rating record (`time_rate_scrap` loop body output). -/
structure RatingRecord where
  Rate : String
  Time : String
deriving DecidableEq

/-- `re.search(r'\d+', s)` worker over the character list: the first maximal
run of decimal digits, if any. -/
def firstDigitRunAux : List Char → Option (List Char)
  | [] => none
  | c :: cs =>
      if c.isDigit then some (c :: cs.takeWhile Char.isDigit)
      else firstDigitRunAux cs

/-- `re.search(r'\d+', s)`: the first maximal run of decimal digits of `s`,
or `none` when `s` has no digit. -/
def firstDigitRun (s : String) : Option String :=
  (firstDigitRunAux s.data).map String.mk

/-- Body of the `for container in rate_containers` loop of `time_rate_scrap`:
read the star widget's `aria-label` (default "Unknown" when the widget or
the attribute is missing), take its first digit run (default "Unknown"),
and the date element's stripped text (default "Unknown"). -/
def rateOfContainer (container : Node) : RatingRecord :=
  let rate_element := findFirst "div" rateWidgetClass container
  let rate_text :=
    match rate_element with
    | some w => (w.attr "aria-label").getD "Unknown"
    | none => "Unknown"
  let rate := (firstDigitRun rate_text).getD "Unknown"
  let date_element := findFirst "div" dateClass container
  let date :=
    match date_element with
    | some d => d.textStrip
    | none => "Unknown"
  ⟨rate, date⟩

/-- `try` block of `time_rate_scrap`: map `rateOfContainer` over every rate
container of the page, in document order. -/
def time_rate_scrap_try (soup : Node) : List RatingRecord :=
  (findAllFrom "div" rateContainerClass soup).map rateOfContainer

/-- `time_rate_scrap`: on an unexpected exception the handler logs the error
and returns the one-element list `[{"Rate": 'Unknown', "Time": 'Unknown'}]`. -/
def time_rate_scrap (soup : Node) (exn : Option String) :
    List RatingRecord × List LogEntry :=
  match exn with
  | some e => ([⟨"Unknown", "Unknown"⟩], [⟨.error, "Error extracting rate/time: " ++ e⟩])
  | none => (time_rate_scrap_try soup, [])

/-- Result dictionary of a successful `detail_scrap` call: the three keys
`"reviews"`, `"content"`, `"time_rate"` (the reviews value may be Python
`None`). -/
structure ScrapResult where
  reviews : Option (List IdentityRecord)
  content : List String
  time_rate : List RatingRecord
deriving DecidableEq

/-- Behaviour of the external fetch+parse collaborators for one page:
either `requests.get` / `BeautifulSoup` raises (`fetchFail`), or a parsed
document is produced, together with the (modelled) exception behaviour of
the three extraction `try` blocks run on it. -/
inductive PageOutcome where
  | fetchFail : String → PageOutcome
  | page : Node → Option String → Option String → Option String → PageOutcome

/-- Value part of `detail_scrap`: Python `{}` (fetch/parse failure) is
modelled as `none`; otherwise the three extractions run independently and
their values fill the result dictionary. -/
def detail_scrap_data : PageOutcome → Option ScrapResult
  | .fetchFail _ => none
  | .page soup rexn cexn texn =>
      some ⟨(extract_reviews soup rexn).1, (extract_content soup cexn).1,
        (time_rate_scrap soup texn).1⟩

/-- Log part of `detail_scrap`: the error log of the page-boundary handler on
failure, otherwise the success info line followed by the three extractions'
logs in call order. -/
def detail_scrap_logs (url : String) : PageOutcome → List LogEntry
  | .fetchFail e => [⟨.error, "Error scraping page " ++ url ++ ": " ++ e⟩]
  | .page soup rexn cexn texn =>
      ⟨.info, "Successfully fetched page: " ++ url⟩ ::
        ((extract_reviews soup rexn).2 ++ (extract_content soup cexn).2 ++
          (time_rate_scrap soup texn).2)

/-- `detail_scrap`: the returned dictionary together with the log lines it
emits. -/
def detail_scrap (url : String) (po : PageOutcome) :
    Option ScrapResult × List LogEntry :=
  (detail_scrap_data po, detail_scrap_logs url po)

/-- Does `l` start with the character sequence `pre`? -/
def startsWithChars : List Char → List Char → Bool
  | [], _ => true
  | _ :: _, [] => false
  | c :: cs, d :: ds => c == d && startsWithChars cs ds

/-- Worker for `pySplit`: scan left to right, cutting at every
(leftmost, non-overlapping) occurrence of the separator.  The fuel argument
only makes the recursion structural; `pySplit` supplies enough fuel that
the `0` case is never reached (every step consumes at least one character
of the input when the separator is nonempty). -/
def pySplitAux (sep : List Char) : Nat → List Char → List Char → List (List Char)
  | 0, acc, _ => [acc.reverse]
  | _ + 1, acc, [] => [acc.reverse]
  | fuel + 1, acc, c :: rest =>
      if startsWithChars sep (c :: rest) then
        acc.reverse :: pySplitAux sep fuel [] ((c :: rest).drop sep.length)
      else
        pySplitAux sep fuel (c :: acc) rest

/-- Python `str.split(sep)` for a nonempty separator string: split on every
(leftmost, non-overlapping) occurrence of `sep`; the result always has at
least one (possibly empty) piece.  (Python raises `ValueError` on an empty
separator; the source never passes one.) -/
def pySplit (sep s : String) : List String :=
  (pySplitAux sep.data (s.data.length + 1) [] s.data).map String.mk

/-- Python `str.capitalize()` (ASCII): first character upper-cased, the rest
lower-cased. -/
def pyCapitalize (w : String) : String :=
  match w.data with
  | [] => ""
  | c :: cs => String.mk (c.toUpper :: cs.map Char.toLower)

/-- `app_url.split('apps.shopify.com/')[1].split('/reviews')[0]` followed by
`" ".join(word.capitalize() for word in parts.split('-'))`.  `none` models
the `IndexError` the `[1]` index raises when the URL does not contain the
host marker (`split` always returns a nonempty list, so `[0]` never
raises). -/
def app_name_of (app_url : String) : Option String :=
  match (pySplit "apps.shopify.com/" app_url).get? 1 with
  | none => none
  | some tail =>
      let parts := (pySplit "/reviews" tail).headD ""
      some (String.intercalate " " ((pySplit "-" parts).map pyCapitalize))

/-- One fully merged output row (`combined_data` entry); `ApplicationName`
models the `"Application Name"` key. -/
structure CombinedRecord where
  Store : String
  Location : String
  Span : String
  Rate : String
  Time : String
  Review : String
  ApplicationName : String
deriving DecidableEq

/-- Dictionary built for one zipped `(review, cont, time_rate)` triple in
`main`'s merge loop. -/
def combineRow (app_name : String) (review : IdentityRecord) (cont : String)
    (time_rate : RatingRecord) : CombinedRecord :=
  ⟨review.Store, review.Location, review.Span, time_rate.Rate, time_rate.Time,
    cont, app_name⟩

/-- `for review, cont, time_rate in zip(reviews, content, time_rate_data)`:
positional pairing that stops at the first exhausted sequence. -/
def zipCombine (app_name : String) :
    List IdentityRecord → List String → List RatingRecord → List CombinedRecord
  | r :: rs, c :: cs, t :: ts =>
      combineRow app_name r c t :: zipCombine app_name rs cs ts
  | _, _, _ => []

/-- Python truthiness of `data.get("reviews")`: `None` and `[]` are falsy. -/
def pyTruthyReviews : Option (List IdentityRecord) → Bool
  | none => false
  | some l => !l.isEmpty

/-- Message of the uncaught `TypeError` raised by `zip(None, ...)`. -/
def tyErrMsg : String := "TypeError: zip argument 1 must support iteration"

/-- Outcome of one iteration of the `while True` page loop of `main`:
append the page's merged records and move to the next page (`next`), break
out of the loop (`stop`), or abort the whole run with an uncaught exception
(`crash`).  Each carries the log lines of the iteration. -/
inductive StepResult where
  | next : List CombinedRecord → List LogEntry → StepResult
  | stop : List LogEntry → StepResult
  | crash : String → List LogEntry → StepResult

/-- One iteration of the page loop of `main` at page `page_num` of source
`app_url`, when the environment behaves as `po`: derive the application
name (an absent host marker raises `IndexError` and aborts), fetch and
scrape the page, and either merge-and-continue, break, or crash on
`zip(None, ...)`. -/
def main_step (app_url : String) (page_num : Nat) (po : PageOutcome) : StepResult :=
  match app_name_of app_url with
  | none => .crash "IndexError: list index out of range" []
  | some app_name =>
      let url := app_url ++ Nat.repr page_num
      let dlogs := detail_scrap_logs url po
      match detail_scrap_data po with
      | some d =>
          if pyTruthyReviews d.reviews || !d.content.isEmpty || !d.time_rate.isEmpty then
            match d.reviews with
            | none => .crash tyErrMsg dlogs
            | some reviews =>
                .next (zipCombine app_name reviews d.content d.time_rate)
                  (dlogs ++
                    [⟨.info, "Extracted reviews and content from page " ++
                      Nat.repr page_num⟩])
          else
            .stop (dlogs ++
              [⟨.info, "No more data found at page " ++ Nat.repr page_num ++
                ". Ending scraping for " ++ app_name ++ "."⟩])
      | none =>
          .stop (dlogs ++
            [⟨.info, "No more data found at page " ++ Nat.repr page_num ++
              ". Ending scraping for " ++ app_name ++ "."⟩])

/-- Result of paginating one source against a finite script of page
behaviours: the loop broke at `lastPage` (`finished`), an uncaught
exception aborted it at `atPage` (`crashed`), or the script was exhausted
before the loop decided to stop (`exhausted`; the records gathered so far
are carried in every case).  The `time.sleep(5)` between iterations has no
observable effect and is not modelled. -/
inductive SourceResult where
  | finished : List CombinedRecord → Nat → SourceResult
  | crashed : List CombinedRecord → Nat → String → SourceResult
  | exhausted : List CombinedRecord → SourceResult
deriving DecidableEq

/-- The `while True` page loop of `main` for one source, starting at
`page_num`, consuming one scripted page behaviour per iteration. -/
def run_source (app_url : String) (page_num : Nat) :
    List PageOutcome → SourceResult
  | [] => .exhausted []
  | po :: rest =>
      match main_step app_url page_num po with
      | .stop _ => .finished [] page_num
      | .crash m _ => .crashed [] page_num m
      | .next recs _ =>
          match run_source app_url (page_num + 1) rest with
          | .finished acc last => .finished (recs ++ acc) last
          | .crashed acc p m => .crashed (recs ++ acc) p m
          | .exhausted acc => .exhausted (recs ++ acc)

/-- The hardcoded source URL templates of `main`. -/
def base_url : List String :=
  ["https://apps.shopify.com/google-customer-reviews-1/reviews?search_id=2e1fc3d9-d3c5-4254-acaf-bacae870ded4&page=",
   "https://apps.shopify.com/social-testimonial-slider/reviews?search_id=737d0deb-1c58-4a2f-bedf-b8e2e9edfd69&page=",
   "https://apps.shopify.com/reputon-testimonials/reviews?search_id=86905e06-08cb-4532-ab20-492267a980de&page=",
   "https://apps.shopify.com/product-reviews-by-appio/reviews?search_id=24b42449-d36f-4727-8365-7925219c6797&page=",
   "https://apps.shopify.com/revie/reviews?search_id=31a66c11-4f15-441f-b79d-1a9933b64247&page="]

/-- The outer `for app_url in base_url` loop: each source restarts at page 1;
a crash anywhere propagates and aborts the run (no CSV is written). -/
def run_sources (env : String → List PageOutcome) :
    List String → Except String (List CombinedRecord)
  | [] => .ok []
  | u :: rest =>
      match run_source u 1 (env u) with
      | .crashed _ _ m => .error m
      | .finished recs _ => (run_sources env rest).map fun acc => recs ++ acc
      | .exhausted recs => (run_sources env rest).map fun acc => recs ++ acc

/-- Final action of `main` after the loops: either write the accumulator as
one flat table (header row then one row per record, `pandas` column order =
key insertion order of the row dictionaries) or only log that nothing was
collected. -/
inductive FinalAction where
  | write : List (List String) → FinalAction
  | logNothing : FinalAction
deriving DecidableEq

/-- Header row of the serialized table, in the column order `pandas` derives
from the record dictionaries. -/
def headerRow : List String :=
  ["Store", "Location", "Span", "Rate", "Time", "Review", "Application Name"]

/-- One data row of the serialized table, in header column order. -/
def recordRow (r : CombinedRecord) : List String :=
  [r.Store, r.Location, r.Span, r.Rate, r.Time, r.Review, r.ApplicationName]

/-- `if combined_data: df.to_csv(...) else: logger.info(...)` — serialize the
accumulator exactly once iff it is non-empty. -/
def finalize (combined_data : List CombinedRecord) : FinalAction :=
  if !combined_data.isEmpty then
    .write (headerRow :: combined_data.map recordRow)
  else
    .logNothing

/-- The whole `main`: run every source against the environment, then finalize
the accumulated records (unless an uncaught exception aborted the run). -/
def main_run (env : String → List PageOutcome) :
    Except String (List CombinedRecord × FinalAction) :=
  (run_sources env base_url).map fun acc => (acc, finalize acc)

/-- The application name exactly as the specification words it: the URL path
segment split on hyphens, each piece capitalized, rejoined with single
spaces. -/
def appNameSpec (seg : String) : String :=
  String.intercalate " " ((pySplit "-" seg).map pyCapitalize)

/-- Does this page behaviour make the page loop merge-and-continue?  True
iff the scrape produced a dictionary whose three values are not all falsy
and whose `"reviews"` value is an actual list (so that `zip` does not
raise). -/
def stepGoes (po : PageOutcome) : Bool :=
  match detail_scrap_data po with
  | some d =>
      (pyTruthyReviews d.reviews || !d.content.isEmpty || !d.time_rate.isEmpty) &&
        d.reviews.isSome
  | none => false

/-- Does this page behaviour make the page loop break (the termination
rule)?  True iff the scrape failed outright or all three extracted values
are falsy. -/
def stepStops (po : PageOutcome) : Bool :=
  match detail_scrap_data po with
  | some d => !(pyTruthyReviews d.reviews || !d.content.isEmpty || !d.time_rate.isEmpty)
  | none => true

/-- The records one loop iteration appends for this page behaviour (empty
when the iteration does not reach the merge). -/
def stepRecords (u : String) (po : PageOutcome) : List CombinedRecord :=
  match app_name_of u, detail_scrap_data po with
  | some app, some d =>
      match d.reviews with
      | some reviews => zipCombine app reviews d.content d.time_rate
      | none => []
  | _, _ => []

/-- `d` is the first maximal run of decimal digits of `s`: `s` splits as
`a ++ d ++ b` where `d` is a nonempty run of digits, no digit occurs in
`a`, and `b` does not start with a digit. -/
def IsFirstDigitRun (s d : String) : Prop :=
  ∃ a b : List Char, s.data = a ++ d.data ++ b ∧ d.data ≠ [] ∧
    (∀ c ∈ d.data, c.isDigit = true) ∧ (∀ c ∈ a, c.isDigit = false) ∧
    (∀ c ∈ b.head?, c.isDigit = false)

/- Concrete documents used as witness inputs. -/

/-- The first configured source URL. -/
def url1 : String :=
  "https://apps.shopify.com/google-customer-reviews-1/reviews?search_id=2e1fc3d9-d3c5-4254-acaf-bacae870ded4&page="

/-- A page with a main container holding two reviews (the first with both a
location and a span sibling, the second with none), two content blocks and
two rating containers. -/
def twoReviewPage : Node :=
  .element "html" "" []
    [.element "div" mainContainerClass []
      [.element "div" "" []
        [.element "div" titleClass [] [.text " Acme Store "],
         .element "div" "" [] [.text "Canada"],
         .element "span" "" [] [.text "3 years using the app"]],
       .element "div" "" []
        [.element "div" titleClass [] [.text "Beta Shop"]]],
     .element "div" contentClass [] [.text " Great app "],
     .element "div" contentClass [] [.text "Nice"],
     .element "div" rateContainerClass []
      [.element "div" rateWidgetClass [("aria-label", "Rated 4 out of 5 stars")] [],
       .element "div" dateClass [] [.text "May 1, 2024"]],
     .element "div" rateContainerClass []
      [.element "div" rateWidgetClass [("aria-label", "Rated 5 out of 5 stars")] [],
       .element "div" dateClass [] [.text "May 2, 2024"]]]

/-- A page whose main container is present but holds no title node. -/
def emptyContainerPage : Node :=
  .element "html" "" [] [.element "div" mainContainerClass [] []]

/-- A page with no recognised structure at all. -/
def blankPage : Node := .element "html" "" [] []

/-- A page with no main container but one content block: identity
extraction yields the `None` sentinel while the content group is
non-empty. -/
def noContainerContentPage : Node :=
  .element "html" "" [] [.element "div" contentClass [] [.text "Great app"]]

/-- A page with one content block (and a main container), used for the
extraction-exception counterexample. -/
def contentOnlyPage : Node :=
  .element "html" "" []
    [.element "div" mainContainerClass [] [],
     .element "div" contentClass [] [.text "Great app"]]

/-- A rating container whose widget is labelled "Rated 4 out of 5 stars". -/
def rated4Container : Node :=
  .element "div" rateContainerClass []
    [.element "div" rateWidgetClass [("aria-label", "Rated 4 out of 5 stars")] [],
     .element "div" dateClass [] [.text "May 1, 2024"]]

/- Helper lemmas. -/

/-- Elements of `takeWhile p` satisfy `p`. -/
theorem mem_takeWhile_sat (p : Char → Bool) :
    ∀ (l : List Char), ∀ c ∈ l.takeWhile p, p c = true := by
  intro l
  induction l with
  | nil => intro c hc; simp [List.takeWhile] at hc
  | cons x xs ih =>
      intro c hc
      rw [List.takeWhile_cons] at hc
      by_cases hx : p x = true
      · simp [hx] at hc
        rcases hc with rfl | hc
        · exact hx
        · exact ih c hc
      · simp [hx] at hc

/-- The head of `dropWhile p` does not satisfy `p`. -/
theorem head_dropWhile_not (p : Char → Bool) :
    ∀ (l : List Char), ∀ c ∈ (l.dropWhile p).head?, p c = false := by
  intro l
  induction l with
  | nil => intro c hc; simp [List.dropWhile] at hc
  | cons x xs ih =>
      intro c hc
      rw [List.dropWhile_cons] at hc
      by_cases hx : p x = true
      · exact ih c (by simpa [hx] using hc)
      · simp [hx] at hc
        subst hc
        simpa using hx

/-- A `none` result of the digit-run scan means the input has no digit. -/
theorem firstDigitRunAux_eq_none :
    ∀ {l : List Char}, firstDigitRunAux l = none → ∀ c ∈ l, c.isDigit = false := by
  intro l
  induction l with
  | nil => intro _ c hc; simp at hc
  | cons x xs ih =>
      intro h c hc
      by_cases hx : x.isDigit = true
      · simp [firstDigitRunAux, hx] at h
      · rw [firstDigitRunAux, if_neg (by simp [hx])] at h
        rcases List.mem_cons.mp hc with rfl | hc
        · simpa using hx
        · exact ih h c hc

/-- A `some` result of the digit-run scan is the first maximal digit run:
the input splits around it, it is a nonempty all-digit run, no digit
precedes it, and the remainder does not start with a digit. -/
theorem firstDigitRunAux_eq_some :
    ∀ {l d : List Char}, firstDigitRunAux l = some d →
      ∃ a b, l = a ++ d ++ b ∧ d ≠ [] ∧ (∀ c ∈ d, c.isDigit = true) ∧
        (∀ c ∈ a, c.isDigit = false) ∧ (∀ c ∈ b.head?, c.isDigit = false) := by
  intro l
  induction l with
  | nil => intro d h; simp [firstDigitRunAux] at h
  | cons x xs ih =>
      intro d h
      by_cases hx : x.isDigit = true
      · rw [firstDigitRunAux, if_pos hx] at h
        have hd' : d = x :: xs.takeWhile Char.isDigit := (Option.some_inj.mp h).symm
        subst hd'
        refine ⟨[], xs.dropWhile Char.isDigit, ?_, by simp, ?_, by simp, ?_⟩
        · simp [List.takeWhile_append_dropWhile]
        · intro c hc
          rcases List.mem_cons.mp hc with rfl | hc
          · exact hx
          · exact mem_takeWhile_sat Char.isDigit xs c hc
        · exact head_dropWhile_not Char.isDigit xs
      · rw [firstDigitRunAux, if_neg (by simp [hx])] at h
        obtain ⟨a, b, hl, hd, hdig, ha, hb⟩ := ih h
        refine ⟨x :: a, b, by simp [hl], hd, hdig, ?_, hb⟩
        intro c hc
        rcases List.mem_cons.mp hc with rfl | hc
        · simpa using hx
        · exact ha c hc

/-- `firstDigitRun` refines the declarative "first maximal digit run"
characterization. -/
theorem firstDigitRun_spec {s d : String} (h : firstDigitRun s = some d) :
    IsFirstDigitRun s d := by
  obtain ⟨l, hl, rfl⟩ := Option.map_eq_some'.mp h
  obtain ⟨a, b, hsplit, hne, hdig, ha, hb⟩ := firstDigitRunAux_eq_some hl
  exact ⟨a, b, by simpa using hsplit, by simpa using hne, hdig, ha, hb⟩

/-- `firstDigitRun` returns `none` exactly on digit-free strings. -/
theorem firstDigitRun_eq_none {s : String} (h : firstDigitRun s = none) :
    ∀ c ∈ s.data, c.isDigit = false := by
  have : firstDigitRunAux s.data = none := by
    unfold firstDigitRun at h
    exact Option.map_eq_none'.mp h
  exact firstDigitRunAux_eq_none this

/-- The merge produces exactly as many records as the shortest of the three
sequences. -/
theorem zipCombine_length (app : String) :
    ∀ (rs : List IdentityRecord) (cs : List String) (ts : List RatingRecord),
      (zipCombine app rs cs ts).length = min rs.length (min cs.length ts.length) := by
  intro rs
  induction rs with
  | nil => intro cs ts; simp [zipCombine]
  | cons r rs ih =>
      intro cs ts
      cases cs with
      | nil => simp [zipCombine]
      | cons c cs =>
          cases ts with
          | nil => simp [zipCombine]
          | cons t ts =>
              simp only [zipCombine, List.length_cons, ih, Nat.succ_min_succ]

/-- The merge pairs the three sequences by positional index. -/
theorem zipCombine_get? (app : String) :
    ∀ (rs : List IdentityRecord) (cs : List String) (ts : List RatingRecord)
      (i : Nat) (r : IdentityRecord) (c : String) (t : RatingRecord),
      rs.get? i = some r → cs.get? i = some c → ts.get? i = some t →
      (zipCombine app rs cs ts).get? i = some (combineRow app r c t) := by
  intro rs
  induction rs with
  | nil => intro cs ts i r c t hr; simp at hr
  | cons r0 rs ih =>
      intro cs ts i r c t hr hc ht
      cases cs with
      | nil => simp at hc
      | cons c0 cs =>
          cases ts with
          | nil => simp at ht
          | cons t0 ts =>
              cases i with
              | zero =>
                  simp only [List.get?_cons_zero, Option.some_inj] at hr hc ht
                  subst hr; subst hc; subst ht
                  simp [zipCombine]
              | succ i =>
                  simp only [List.get?_cons_succ] at hr hc ht
                  simpa [zipCombine] using ih cs ts i r c t hr hc ht

/-- `find_next_sibling()` returns `None` exactly when no element follows. -/
theorem nextElemSibling_eq_none :
    ∀ {l : List Node}, nextElemSibling l = none ↔ l.filter Node.isElem = [] := by
  intro l
  induction l with
  | nil => simp [nextElemSibling]
  | cons n rest ih =>
      by_cases h : n.isElem = true
      · simp [nextElemSibling, h, List.filter_cons]
      · simp [nextElemSibling, h, List.filter_cons, ih]

/-- A found next element sibling heads the filtered sibling list. -/
theorem nextElemSibling_eq_some :
    ∀ {l : List Node} {x : Node} {rest : List Node},
      nextElemSibling l = some (x, rest) →
      l.filter Node.isElem = x :: rest.filter Node.isElem := by
  intro l
  induction l with
  | nil => intro x rest h; simp [nextElemSibling] at h
  | cons n tl ih =>
      intro x rest h
      by_cases hn : n.isElem = true
      · rw [nextElemSibling, if_pos hn] at h
        obtain ⟨rfl, rfl⟩ := Prod.mk.injEq .. ▸ Option.some_inj.mp h
        simp [List.filter_cons, hn]
      · rw [nextElemSibling, if_neg (by simp [hn])] at h
        simp [List.filter_cons, hn, ih h]

/-- When the termination condition holds, a loop iteration breaks. -/
theorem main_step_eq_stop {u : String} {po : PageOutcome}
    (hu : (app_name_of u).isSome = true) (hs : stepStops po = true) (n : Nat) :
    ∃ logs, main_step u n po = .stop logs := by
  obtain ⟨app, happ⟩ := Option.isSome_iff_exists.mp hu
  unfold stepStops at hs
  cases hpo : detail_scrap_data po with
  | none =>
      exact ⟨detail_scrap_logs (u ++ Nat.repr n) po ++
        [⟨.info, "No more data found at page " ++ Nat.repr n ++
          ". Ending scraping for " ++ app ++ "."⟩],
        by simp only [main_step, happ, hpo]⟩
  | some d =>
      simp only [hpo] at hs
      cases hc : (pyTruthyReviews d.reviews || !d.content.isEmpty || !d.time_rate.isEmpty) with
      | true => rw [hc] at hs; simp at hs
      | false =>
          exact ⟨detail_scrap_logs (u ++ Nat.repr n) po ++
            [⟨.info, "No more data found at page " ++ Nat.repr n ++
              ". Ending scraping for " ++ app ++ "."⟩],
            by simp [main_step, happ, hpo, hc]⟩

/-- When the page yields data and the reviews value is a list, a loop
iteration merges `stepRecords` and continues. -/
theorem main_step_eq_next {u : String} {po : PageOutcome}
    (hu : (app_name_of u).isSome = true) (hg : stepGoes po = true) (n : Nat) :
    ∃ logs, main_step u n po = .next (stepRecords u po) logs := by
  obtain ⟨app, happ⟩ := Option.isSome_iff_exists.mp hu
  unfold stepGoes at hg
  cases hpo : detail_scrap_data po with
  | none => rw [hpo] at hg; simp at hg
  | some d =>
      rw [hpo] at hg
      rw [Bool.and_eq_true] at hg
      obtain ⟨hcond, hsome⟩ := hg
      obtain ⟨reviews, hrev⟩ := Option.isSome_iff_exists.mp hsome
      rw [hrev] at hcond
      exact ⟨detail_scrap_logs (u ++ Nat.repr n) po ++
        [⟨.info, "Extracted reviews and content from page " ++ Nat.repr n⟩],
        by simp [main_step, happ, hpo, hrev, hcond, stepRecords]⟩

/-- Pagination stops at the first page whose step satisfies the termination
condition, accumulating exactly the records of the preceding pages; the
pages after it are never fetched. -/
theorem run_source_stops_after (u : String) (hu : (app_name_of u).isSome = true)
    (pres : List PageOutcome) (stopper : PageOutcome) (rest : List PageOutcome)
    (hgo : ∀ po ∈ pres, stepGoes po = true) (hst : stepStops stopper = true) :
    ∀ n, run_source u n (pres ++ stopper :: rest) =
      .finished ((pres.map (stepRecords u)).flatten) (n + pres.length) := by
  induction pres with
  | nil =>
      intro n
      obtain ⟨logs, hstep⟩ := main_step_eq_stop hu hst n
      simp [run_source, hstep]
  | cons po pres ih =>
      intro n
      obtain ⟨logs, hstep⟩ := main_step_eq_next hu (hgo po (by simp)) n
      have ihn := ih (fun p hp => hgo p (by simp [hp])) (n + 1)
      have harith : n + (pres.length + 1) = n + 1 + pres.length := by omega
      simp only [List.cons_append, run_source, hstep, List.append_eq, ihn, List.map_cons,
        List.flatten_cons, List.length_cons, harith]

/-- A list is non-empty exactly when `isEmpty` is `false`. -/
theorem ne_nil_isEmpty_false {α : Type} {l : List α} (h : l ≠ []) : l.isEmpty = false := by
  cases l with
  | nil => exact absurd rfl h
  | cons a t => rfl

/-- When the page yields data but its reviews value is `None` while the
content or rating value is non-empty, the merge's `zip(None, ...)` raises
an uncaught `TypeError` and the iteration crashes. -/
theorem main_step_eq_crash {u : String} {po : PageOutcome} {d : ScrapResult}
    (hu : (app_name_of u).isSome = true) (hpo : detail_scrap_data po = some d)
    (hrev : d.reviews = none) (hcd : d.content ≠ [] ∨ d.time_rate ≠ [])
    (n : Nat) : ∃ logs, main_step u n po = .crash tyErrMsg logs := by
  obtain ⟨app, happ⟩ := Option.isSome_iff_exists.mp hu
  have hcond : (pyTruthyReviews none || !d.content.isEmpty ||
      !d.time_rate.isEmpty) = true := by
    rcases hcd with h | h
    · simp [pyTruthyReviews, ne_nil_isEmpty_false h]
    · simp [pyTruthyReviews, ne_nil_isEmpty_false h]
  exact ⟨detail_scrap_logs (u ++ Nat.repr n) po,
    by simp [main_step, happ, hpo, hcond, hrev]⟩

/-- Every record the merge produces is tagged with the derived application
name. -/
theorem zipCombine_appname (app : String) :
    ∀ (rs : List IdentityRecord) (cs : List String) (ts : List RatingRecord),
      ∀ r ∈ zipCombine app rs cs ts, r.ApplicationName = app := by
  intro rs
  induction rs with
  | nil => intro cs ts r hr; simp [zipCombine] at hr
  | cons r0 rs ih =>
      intro cs ts r hr
      cases cs with
      | nil => simp [zipCombine] at hr
      | cons c0 cs =>
          cases ts with
          | nil => simp [zipCombine] at hr
          | cons t0 ts =>
              rcases List.mem_cons.mp hr with rfl | hr
              · rfl
              · exact ih cs ts r hr

/-- C1 (amended).  An unexpected exception in any one of the three
extraction groups is caught at that group's boundary and logged; the
content and rating groups degrade to `[]` and to the single all-"Unknown"
record respectively, and the failure never prevents the other two groups of
the same page from being extracted.  However the identity group degrades to
`None` (not to an empty sequence): when the page's other two groups are
also empty this merely triggers the termination rule, but when either is
non-empty the merge's `zip(None, ...)` raises an uncaught `TypeError` that
aborts the pagination loop. -/
theorem extraction_exception_policy (soup : Node) (e : String) (u : String) (n : Nat)
    (hu : (app_name_of u).isSome = true) :
    extract_reviews soup (some e) =
      (none, [⟨.error, "Error extracting reviews: " ++ e⟩]) ∧
    extract_content soup (some e) =
      ([], [⟨.error, "Error extracting content: " ++ e⟩]) ∧
    time_rate_scrap soup (some e) =
      ([⟨"Unknown", "Unknown"⟩], [⟨.error, "Error extracting rate/time: " ++ e⟩]) ∧
    detail_scrap_data (.page soup (some e) none none) =
      some ⟨none, extract_content_try soup, time_rate_scrap_try soup⟩ ∧
    detail_scrap_data (.page soup none (some e) (some e)) =
      some ⟨(extract_reviews_try soup).1, [], [⟨"Unknown", "Unknown"⟩]⟩ ∧
    (extract_content_try soup = [] → time_rate_scrap_try soup = [] →
      ∃ logs, main_step u n (.page soup (some e) none none) = .stop logs) ∧
    (extract_content_try soup ≠ [] ∨ time_rate_scrap_try soup ≠ [] →
      ∃ logs, main_step u n (.page soup (some e) none none) = .crash tyErrMsg logs) := by
  refine ⟨rfl, rfl, rfl, rfl, rfl, ?_, ?_⟩
  · intro hc ht
    refine main_step_eq_stop hu ?_ n
    simp [stepStops, detail_scrap_data, extract_reviews, extract_content,
      time_rate_scrap, pyTruthyReviews, hc, ht]
  · intro hor
    exact @main_step_eq_crash u (.page soup (some e) none none)
      ⟨none, extract_content_try soup, time_rate_scrap_try soup⟩ hu rfl rfl hor n

/-- Witness for `extraction_exception_policy`: on a page with one content
block, an identity-extraction exception yields the `None` sentinel and the
loop iteration crashes with the `TypeError`. -/
theorem extraction_exception_policy_witness :
    (extract_reviews contentOnlyPage (some "boom")).1 = none ∧
    (∃ logs, main_step url1 1 (.page contentOnlyPage (some "boom") none none) =
      .crash tyErrMsg logs) := by
  have h := extraction_exception_policy contentOnlyPage "boom" url1 1 (by decide)
  exact ⟨by rw [h.1], h.2.2.2.2.2.2 (Or.inl (by decide))⟩

/-- C1 counterexample.  The claim says an exception caught in one group
"never aborts the pagination loop over pages" and degrades identity to an
empty sequence: on a page whose content group is non-empty, an
identity-extraction exception instead yields `None` (not `[]`) and the run
aborts at that page with an uncaught `TypeError`. -/
theorem extraction_exception_abort_cex :
    (extract_reviews contentOnlyPage (some "boom")).1 ≠ some [] ∧
    (extract_content contentOnlyPage none).1 = ["Great app"] ∧
    run_source url1 1 [.page contentOnlyPage (some "boom") none none] =
      .crashed [] 1 tyErrMsg := by
  refine ⟨by decide, by decide, by decide⟩

/-- C2.  When the parsed page has no main-container node, identity
extraction logs a warning and returns the `None` no-identity-data
sentinel, which is distinct from the `some []` produced by a present but
title-free container, and which the caller's truthiness test treats as "no
identity data". -/
theorem no_container_sentinel (soup soup2 c : Node)
    (h : findFirst "div" mainContainerClass soup = none)
    (h2 : findFirst "div" mainContainerClass soup2 = some c)
    (h3 : findPairsFrom "div" titleClass c = []) :
    extract_reviews soup none =
      (none, [⟨.warning, "Main container not found on this page"⟩]) ∧
    (extract_reviews soup2 none).1 = some [] ∧
    (extract_reviews soup none).1 ≠ (extract_reviews soup2 none).1 ∧
    pyTruthyReviews (extract_reviews soup none).1 = false := by
  have e1 : extract_reviews soup none =
      (none, [⟨.warning, "Main container not found on this page"⟩]) := by
    simp [extract_reviews, extract_reviews_try, h]
  have e2 : (extract_reviews soup2 none).1 = some [] := by
    simp [extract_reviews, extract_reviews_try, h2, h3]
  exact ⟨e1, e2, by simp [e1, e2], by simp [e1, pyTruthyReviews]⟩

/-- Witness for `no_container_sentinel`: a bare page versus a page whose
container is present but empty. -/
theorem no_container_sentinel_witness :
    (extract_reviews blankPage none).1 = none ∧
    (extract_reviews emptyContainerPage none).1 = some [] ∧
    (extract_reviews blankPage none).1 ≠ (extract_reviews emptyContainerPage none).1 := by
  have h := no_container_sentinel blankPage emptyContainerPage
    (.element "div" mainContainerClass [] []) rfl rfl rfl
  exact ⟨by rw [h.1], h.2.1, h.2.2.1⟩

/-- C3 (amended).  Provided identity extraction yields an actual list on
every attempted page (no `None` sentinel), pagination stops exactly at the
first page offset at which none of the three extracted sequences contains
an element, accumulating exactly the records of the preceding pages and
never fetching the pages after the stopping one.  (When a page's identity
value is the `None` sentinel while its content or rating sequence is
non-empty, the run instead aborts with an uncaught `TypeError` — see the
counterexample.) -/
theorem pagination_termination (u : String) (hu : (app_name_of u).isSome = true)
    (pres : List PageOutcome) (stopper : PageOutcome) (rest : List PageOutcome)
    (hgo : ∀ po ∈ pres, stepGoes po = true) (hst : stepStops stopper = true) :
    run_source u 1 (pres ++ stopper :: rest) =
      .finished ((pres.map (stepRecords u)).flatten) (pres.length + 1) := by
  rw [run_source_stops_after u hu pres stopper rest hgo hst 1, Nat.add_comm]

/-- Witness for `pagination_termination` (the spec's own instance): page 1
yields two identities (plus two content blocks and two ratings), page 2
yields none of the three; pagination stops after page 2 with exactly
page 1's two records. -/
theorem pagination_termination_witness :
    run_source url1 1
        [.page twoReviewPage none none none, .page emptyContainerPage none none none] =
      .finished
        [⟨"Acme Store", "Canada", "3 years using the app", "4", "May 1, 2024",
          "Great app", "Google Customer Reviews 1"⟩,
         ⟨"Beta Shop", "Unknown", "Unknown", "5", "May 2, 2024", "Nice",
          "Google Customer Reviews 1"⟩] 2 := by
  have h := pagination_termination url1 (by decide)
    [.page twoReviewPage none none none] (.page emptyContainerPage none none none) []
    (by intro p hp; simp only [List.mem_singleton] at hp; subst hp; decide)
    (by decide)
  exact h.trans (by decide)

/-- C3 counterexample.  A page whose content sequence is non-empty is not a
stopping page under the claim's rule, so pagination should continue to the
next offset; instead, because its identity value is the `None` sentinel,
the run crashes at that page and the next page is never attempted. -/
theorem pagination_rule_cex :
    detail_scrap_data (.page noContainerContentPage none none none) =
      some ⟨none, ["Great app"], []⟩ ∧
    stepStops (.page noContainerContentPage none none none) = false ∧
    run_source url1 1 [.page noContainerContentPage none none none, .fetchFail "next"] =
      .crashed [] 1 tyErrMsg := by
  refine ⟨by decide, by decide, by decide⟩

/-- C4.  The merge pairs the three per-page sequences by positional index
and stops at the first exhausted sequence: it produces exactly
`min(len(identities), min(len(content), len(ratings)))` records, the
`i`-th built from the `i`-th element of each sequence. -/
theorem merge_zip_truncation (app : String) (rs : List IdentityRecord)
    (cs : List String) (ts : List RatingRecord) :
    (zipCombine app rs cs ts).length = min rs.length (min cs.length ts.length) ∧
    (∀ i r c t, rs.get? i = some r → cs.get? i = some c → ts.get? i = some t →
      (zipCombine app rs cs ts).get? i = some (combineRow app r c t)) :=
  ⟨zipCombine_length app rs cs ts, fun i r c t => zipCombine_get? app rs cs ts i r c t⟩

/-- Witness for `merge_zip_truncation`: lengths 3, 2, 4 produce exactly 2
records, the first pairing the three first elements. -/
theorem merge_zip_truncation_witness :
    (zipCombine "App"
        [⟨"S1", "L1", "P1"⟩, ⟨"S2", "L2", "P2"⟩, ⟨"S3", "L3", "P3"⟩]
        ["c1", "c2"]
        [⟨"1", "t1"⟩, ⟨"2", "t2"⟩, ⟨"3", "t3"⟩, ⟨"4", "t4"⟩]).length = 2 ∧
    (zipCombine "App"
        [⟨"S1", "L1", "P1"⟩, ⟨"S2", "L2", "P2"⟩, ⟨"S3", "L3", "P3"⟩]
        ["c1", "c2"]
        [⟨"1", "t1"⟩, ⟨"2", "t2"⟩, ⟨"3", "t3"⟩, ⟨"4", "t4"⟩]).get? 0 =
      some (combineRow "App" ⟨"S1", "L1", "P1"⟩ "c1" ⟨"1", "t1"⟩) := by
  constructor
  · exact (merge_zip_truncation "App" _ _ _).1.trans (by decide)
  · exact (merge_zip_truncation "App" _ _ _).2 0 _ _ _ rfl rfl rfl

/-- C5.  A fetch/parse failure is caught at the page boundary and logged,
the page is treated as having yielded no data (the `{}` result), and this
triggers the termination rule: the run of the source at that page is
indistinguishable from its run on a page that legitimately contains no
recognised data. -/
theorem fetch_failure_is_end_of_source (u url msg : String) (n : Nat)
    (rest : List PageOutcome) (hu : (app_name_of u).isSome = true) :
    detail_scrap url (.fetchFail msg) =
      (none, [⟨.error, "Error scraping page " ++ url ++ ": " ++ msg⟩]) ∧
    run_source u n (.fetchFail msg :: rest) = .finished [] n ∧
    run_source u n (.fetchFail msg :: rest) =
      run_source u n (.page blankPage none none none :: rest) := by
  have h1 : run_source u n (.fetchFail msg :: rest) = .finished [] n := by
    obtain ⟨logs, hstep⟩ := @main_step_eq_stop u (.fetchFail msg) hu rfl n
    simp [run_source, hstep]
  have h2 : run_source u n (.page blankPage none none none :: rest) =
      .finished [] n := by
    obtain ⟨logs, hstep⟩ :=
      @main_step_eq_stop u (.page blankPage none none none) hu (by decide) n
    simp [run_source, hstep]
  exact ⟨rfl, h1, h1.trans h2.symm⟩

/-- Witness for `fetch_failure_is_end_of_source`: a connection error on the
first page ends the first source at page 1 with no records. -/
theorem fetch_failure_witness :
    run_source url1 1 [.fetchFail "ConnectionError"] = .finished [] 1 :=
  (fetch_failure_is_end_of_source url1 (url1 ++ "1") "ConnectionError" 1 []
    (by decide)).2.1

/-- C6.  After all sources are exhausted, a non-empty accumulator is
serialized exactly once as one flat table — a header row in the column
order Store, Location, Span, Rate, Time, Review, Application Name followed
by one row per record — and an empty accumulator only logs that nothing
was collected. -/
theorem final_serialization (env : String → List PageOutcome)
    (acc : List CombinedRecord) (act : FinalAction)
    (h : main_run env = .ok (acc, act)) :
    (acc = [] → act = .logNothing) ∧
    (acc ≠ [] → act = .write (headerRow :: acc.map recordRow) ∧
      (headerRow :: acc.map recordRow).length = acc.length + 1) := by
  have hact : act = finalize acc := by
    unfold main_run at h
    cases hrs : run_sources env base_url with
    | error e => rw [hrs] at h; simp [Except.map] at h
    | ok acc2 =>
        rw [hrs] at h
        simp only [Except.map, Except.ok.injEq, Prod.mk.injEq] at h
        obtain ⟨rfl, rfl⟩ := h
        rfl
  constructor
  · intro hacc
    subst hacc
    rw [hact]
    rfl
  · intro hacc
    refine ⟨?_, by simp⟩
    rw [hact]
    simp [finalize, ne_nil_isEmpty_false hacc]

/-- Witness for `final_serialization`: when every fetch fails, the run ends
with an empty accumulator and only the nothing-collected log. -/
theorem final_serialization_witness :
    main_run (fun _ => [.fetchFail "ConnectionError"]) = .ok ([], .logNothing) ∧
    FinalAction.logNothing = FinalAction.logNothing := by
  refine ⟨rfl, ?_⟩
  exact (final_serialization (fun _ => [.fetchFail "ConnectionError"]) []
    .logNothing rfl).1 rfl

/-- C7.  For every configured source URL, the derived application name is
the URL's path segment between the host and the trailing `/reviews`
suffix, split on hyphens, each piece capitalized, rejoined with single
spaces (`appNameSpec`); the segment `google-customer-reviews-1` yields
"Google Customer Reviews 1"; and every record merged for a source is
tagged with exactly that name (the name is a function of the source URL
alone, hence identical for every page of the source). -/
theorem app_name_derivation :
    base_url.map app_name_of =
      [some (appNameSpec "google-customer-reviews-1"),
       some (appNameSpec "social-testimonial-slider"),
       some (appNameSpec "reputon-testimonials"),
       some (appNameSpec "product-reviews-by-appio"),
       some (appNameSpec "revie")] ∧
    appNameSpec "google-customer-reviews-1" = "Google Customer Reviews 1" ∧
    (∀ u app po, app_name_of u = some app →
      ∀ r ∈ stepRecords u po, r.ApplicationName = app) := by
  refine ⟨by decide, by decide, ?_⟩
  intro u app po happ r hr
  cases hpo : detail_scrap_data po with
  | none => simp only [stepRecords, happ, hpo] at hr; simp at hr
  | some d =>
      simp only [stepRecords, happ, hpo] at hr
      cases hrev : d.reviews with
      | none => simp only [hrev] at hr; simp at hr
      | some reviews =>
          simp only [hrev] at hr
          exact zipCombine_appname app reviews d.content d.time_rate r hr

/-- Witness for `app_name_derivation`: the first record merged from the
two-review page of the first source carries "Google Customer Reviews 1". -/
theorem app_name_derivation_witness :
    ∀ r ∈ stepRecords url1 (.page twoReviewPage none none none),
      r.ApplicationName = "Google Customer Reviews 1" :=
  app_name_derivation.2.2 url1 "Google Customer Reviews 1"
    (.page twoReviewPage none none none) (by decide)

/-- C8.  For every rating container: `Rate` is the first maximal run of
decimal digits of the rating widget's `aria-label` attribute value, and it
defaults to "Unknown" whenever the widget, the attribute, or a digit run
is absent; `time_rate_scrap` applies this rule to every rating container
of the page in document order. -/
theorem rating_digit_extraction (c : Node) :
    (∀ soup, time_rate_scrap_try soup =
      (findAllFrom "div" rateContainerClass soup).map rateOfContainer) ∧
    (findFirst "div" rateWidgetClass c = none → (rateOfContainer c).Rate = "Unknown") ∧
    (∀ w, findFirst "div" rateWidgetClass c = some w → w.attr "aria-label" = none →
      (rateOfContainer c).Rate = "Unknown") ∧
    (∀ w v, findFirst "div" rateWidgetClass c = some w →
      w.attr "aria-label" = some v →
      (firstDigitRun v = none → (rateOfContainer c).Rate = "Unknown") ∧
      (∀ d, firstDigitRun v = some d →
        (rateOfContainer c).Rate = d ∧ IsFirstDigitRun v d)) := by
  refine ⟨fun soup => rfl, ?_, ?_, ?_⟩
  · intro h
    simp only [rateOfContainer, h]
    decide
  · intro w hw hattr
    simp only [rateOfContainer, hw, hattr]
    decide
  · intro w v hw hv
    constructor
    · intro hnone
      simp [rateOfContainer, hw, hv, hnone]
    · intro d hd
      refine ⟨?_, firstDigitRun_spec hd⟩
      simp [rateOfContainer, hw, hv, hd]

/-- Witness for `rating_digit_extraction`: the label "Rated 4 out of 5
stars" yields `Rate = "4"` (and "4" is its first maximal digit run), while
a container without a widget yields "Unknown". -/
theorem rating_digit_extraction_witness :
    (rateOfContainer rated4Container).Rate = "4" ∧
    IsFirstDigitRun "Rated 4 out of 5 stars" "4" ∧
    (rateOfContainer (.element "div" rateContainerClass [] [])).Rate = "Unknown" := by
  have h := ((rating_digit_extraction rated4Container).2.2.2
    (.element "div" rateWidgetClass [("aria-label", "Rated 4 out of 5 stars")] [])
    "Rated 4 out of 5 stars" rfl rfl).2 "4" (by decide)
  exact ⟨h.1, h.2, (rating_digit_extraction _).2.1 rfl⟩

/-- C9.  For every identity title node: `Store` is its trimmed text; with
no following element sibling both `Location` and `Span` are "Unknown";
with exactly one following element sibling `Location` is that sibling's
trimmed text and `Span` is "Unknown". -/
theorem identity_sibling_defaults (el : Node) (following : List Node) :
    (identityOf el following).Store = el.textStrip ∧
    (following.filter Node.isElem = [] →
      (identityOf el following).Location = "Unknown" ∧
      (identityOf el following).Span = "Unknown") ∧
    (∀ l, following.filter Node.isElem = [l] →
      (identityOf el following).Location = l.textStrip ∧
      (identityOf el following).Span = "Unknown") := by
  refine ⟨?_, ?_, ?_⟩
  · unfold identityOf
    split
    · rfl
    · split <;> rfl
  · intro hf
    have h0 : nextElemSibling following = none := nextElemSibling_eq_none.mpr hf
    constructor <;> simp [identityOf, h0]
  · intro l hl
    rcases h1 : nextElemSibling following with _ | ⟨loc, after⟩
    · rw [nextElemSibling_eq_none.mp h1] at hl
      simp at hl
    · have hf := nextElemSibling_eq_some h1
      rw [hl] at hf
      obtain ⟨rfl, hrest⟩ :=
        (by simpa using hf.symm : loc = l ∧ after.filter Node.isElem = [])
      have h2 : nextElemSibling after = none := nextElemSibling_eq_none.mpr hrest
      constructor <;> simp [identityOf, h1, h2]

/-- Witness for `identity_sibling_defaults`: a sibling-less title defaults
both fields; a title with one element sibling (after a text node) takes its
location from it. -/
theorem identity_sibling_defaults_witness :
    (identityOf (.element "div" titleClass [] [.text "Beta Shop"]) []).Location =
      "Unknown" ∧
    (identityOf (.element "div" titleClass [] [.text "Beta Shop"]) []).Span =
      "Unknown" ∧
    (identityOf (.element "div" titleClass [] [.text "Beta Shop"])
        [.text "\n", .element "div" "" [] [.text " Canada "]]).Location = "Canada" := by
  refine ⟨((identity_sibling_defaults _ []).2.1 rfl).1,
    ((identity_sibling_defaults _ []).2.1 rfl).2, ?_⟩
  have h := ((identity_sibling_defaults
    (.element "div" titleClass [] [.text "Beta Shop"])
    [.text "\n", .element "div" "" [] [.text " Canada "]]).2.2
    (.element "div" "" [] [.text " Canada "]) rfl).1
  rw [h]
  decide

/-- C10.  On a page whose identity and content sequences are both empty
lists while the rating sequence is non-empty (as produced, in particular,
by a rating-extraction exception on a page with an empty-but-present
container and no content blocks), the driver appends zero records yet does
not terminate the source: the iteration of that page is equivalent to
skipping straight to the next page number. -/
theorem empty_groups_rating_continues (u : String) (hu : (app_name_of u).isSome = true)
    (po : PageOutcome) (d : ScrapResult) (hd : detail_scrap_data po = some d)
    (hr : d.reviews = some []) (hc : d.content = []) (n : Nat)
    (rest : List PageOutcome) :
    stepRecords u po = [] ∧
    (d.time_rate ≠ [] →
      (∃ logs, main_step u n po = .next [] logs) ∧
      run_source u n (po :: rest) = run_source u (n + 1) rest) := by
  obtain ⟨app, happ⟩ := Option.isSome_iff_exists.mp hu
  have hrec : stepRecords u po = [] := by
    simp [stepRecords, happ, hd, hr, zipCombine]
  refine ⟨hrec, ?_⟩
  intro ht
  have hgoes : stepGoes po = true := by
    simp [stepGoes, hd, hr, hc, pyTruthyReviews, ne_nil_isEmpty_false ht]
  obtain ⟨logs, hstep⟩ := main_step_eq_next hu hgoes n
  rw [hrec] at hstep
  refine ⟨⟨logs, hstep⟩, ?_⟩
  simp only [run_source, hstep]
  cases run_source u (n + 1) rest <;> simp

/-- Witness for `empty_groups_rating_continues`: a rating-extraction
exception on a page with an empty container produces the single
all-"Unknown" rating record, and the loop proceeds to page 2. -/
theorem empty_groups_rating_continues_witness :
    run_source url1 1 [.page emptyContainerPage none none (some "boom"),
        .fetchFail "next"] =
      run_source url1 2 [.fetchFail "next"] :=
  ((empty_groups_rating_continues url1 (by decide)
    (.page emptyContainerPage none none (some "boom"))
    ⟨some [], [], [⟨"Unknown", "Unknown"⟩]⟩ rfl rfl rfl 1
    [.fetchFail "next"]).2 (by decide)).2
